import Mathlib

/-
Verification of the UniFi Network API integration core
(`api.py`: transport client / pagination, `coordinator.py`: poll cycle).

The Python modules are shallowly embedded: JSON values become an inductive
`Json` type, `dict` becomes an association list with first-match lookup and
replace-or-append assignment, exceptions become `Except` values, and the
HTTP/network side effects of one call are passed in explicitly as an
`HttpOutcome` (for one request) or as a `server` response function (for a
pagination run).
-/

namespace UnifiNetworkApi

/-- A JSON value, as produced by `resp.json()`. -/
inductive Json where
  | null : Json
  | boolean : Bool → Json
  | num : Int → Json
  | str : String → Json
  | arr : List Json → Json
  | obj : List (String × Json) → Json

/-- A JSON object body (Python `dict[str, Any]`), as an association list. -/
abbrev RecordJ := List (String × Json)

/-- Python `dict.get(k, default)`: value of the first binding of `k`, else the
default. -/
def dictGet (fields : RecordJ) (k : String) (default : Json) : Json :=
  match fields.find? (fun p => p.1 == k) with
  | some p => p.2
  | none => default

/-- Python `s.upper()` restricted to the ASCII range (each character mapped
through `Char.toUpper`), which is all the coordinator compares against. -/
def pyUpper (s : String) : String := String.mk (s.data.map Char.toUpper)

/-! ## api.py — `UnifiNetworkApiClient` -/

/-- `BASE_PATH` from `api.py`. -/
def BASE_PATH : String := "/proxy/network/integration"

/-- Python `host.rstrip("/")`: drop every trailing `'/'`. -/
def rstrip_slash (s : String) : String :=
  String.mk ((s.data.reverse.dropWhile (fun c => c == '/')).reverse)

/-- `self._base_url` as computed by `UnifiNetworkApiClient.__init__`:
`https://{host.rstrip("/")}{BASE_PATH}`. -/
def base_url (host : String) : String :=
  "https://" ++ rstrip_slash host ++ BASE_PATH

/-- The URL `f"{self._base_url}{path}"` built by `_request`. -/
def request_url (host path : String) : String :=
  base_url host ++ path

/-- The typed errors raised by `api.py`: `UnifiAuthenticationError` and
`UnifiConnectionError` are (Python) subclasses of `UnifiApiError`; here each
leaf carries its message string. -/
inductive UnifiError where
  | authenticationError (msg : String)
  | apiError (msg : String)
  | connectionError (msg : String)

/-- The message of a `UnifiError` (Python `str(err)`). -/
def UnifiError.msg : UnifiError → String
  | .authenticationError m => m
  | .apiError m => m
  | .connectionError m => m

/-- The outcome of the underlying `aiohttp` exchange for one request: either an
HTTP response (status, body text, parsed JSON body) or a low-level
`aiohttp.ClientError` with its message. -/
inductive HttpOutcome where
  | response (status : Nat) (text : String) (body : Json)
  | clientError (err : String)

/-- `UnifiNetworkApiClient._request`: maps the HTTP outcome to the parsed JSON
body or a typed error, exactly as the status checks in `api.py` do.  A
`UnifiAuthenticationError`/`UnifiApiError` raised inside the `try` block is not
an `aiohttp.ClientError`, so the `except` clause does not intercept it. -/
def request (host : String) (outcome : HttpOutcome) : Except UnifiError Json :=
  match outcome with
  | .clientError err =>
      .error (.connectionError
        ("Cannot connect to UniFi controller at " ++ rstrip_slash host ++ ": " ++ err))
  | .response status text body =>
      if status = 401 ∨ status = 403 then
        .error (.authenticationError ("Authentication failed: " ++ toString status))
      else if status ≠ 200 then
        .error (.apiError ("API request failed (" ++ toString status ++ "): " ++ text))
      else
        .ok body

/-- One page response as `_paginate` reads it: `resp.get(data_key, [])` is
`data`, and `resp.get("totalCount", ...)` is `totalCount` (absent field =
`none`).  `α` is the record type held in the `data` array. -/
structure PageResp (α : Type) where
  data : List α
  totalCount : Option Nat

/-- The loop body of `UnifiNetworkApiClient._paginate`, fuelled.  `server`
gives the page response for each requested `offset` (the `limit` parameter is
the constant 200).  Returns the accumulated `results` together with the list of
offsets actually requested, in request order; `none` means the fuel ran out
before the loop broke. -/
def paginateGo (server : Nat → PageResp α) :
    Nat → List α → Nat → Option (List α × List Nat)
  | 0, _, _ => none
  | fuel + 1, results, offset =>
      let resp := server offset
      let pageData := resp.data
      let results2 := results ++ pageData
      let total := resp.totalCount.getD results2.length
      if total ≤ results2.length || pageData.isEmpty then
        some (results2, [offset])
      else
        match paginateGo server fuel results2 (offset + 200) with
        | none => none
        | some (r, os) => some (r, offset :: os)

/-- `UnifiNetworkApiClient._paginate`: the loop started with `results = []`,
`offset = 0`. -/
def paginate (server : Nat → PageResp α) (fuel : Nat) : Option (List α × List Nat) :=
  paginateGo server fuel [] 0

/-- The `data` of the page served to the `i`-th request (offset `200 * i`). -/
def pageAt (server : Nat → PageResp α) (i : Nat) : List α :=
  (server (200 * i)).data

/-- The records accumulated after the first `n` pages, in request order. -/
def accTo (server : Nat → PageResp α) : Nat → List α
  | 0 => []
  | n + 1 => accTo server n ++ pageAt server n

/-- The `break` condition of `_paginate` evaluated at the `i`-th request:
`len(results) >= total or not page_data` with `results` the accumulation
through page `i`. -/
def stopAt (server : Nat → PageResp α) (i : Nat) : Bool :=
  let acc := accTo server (i + 1)
  decide ((server (200 * i)).totalCount.getD acc.length ≤ acc.length)
    || (pageAt server i).isEmpty

/-- `UnifiNetworkApiClient.get_wans` after its `_request` succeeded with body
`resp`: `resp if isinstance(resp, list) else resp.get("data", [])`.  On a body
that is neither a list nor a dict, `resp.get` raises `AttributeError`, modelled
as `.error`. -/
def get_wans (resp : Json) : Except String Json :=
  match resp with
  | .arr xs => .ok (.arr xs)
  | .obj fields => .ok (dictGet fields "data" (.arr []))
  | _ => .error "AttributeError"

/-! ## coordinator.py — `UnifiNetworkApiCoordinator` -/

/-- One record of the device listing returned by `get_devices`.  The
coordinator reads `device["id"]`; the remaining attributes are carried
opaquely. -/
structure DeviceRec where
  id : String
  attrs : RecordJ

/-- One record of the client listing returned by `get_clients`.  The
coordinator reads `client.get("type", "")`; `none` models an absent `type`
field.  The remaining attributes are carried opaquely. -/
structure ClientRecord where
  type : Option String
  attrs : RecordJ

/-- One value of the coordinator's `devices` mapping: `{info, details,
statistics}`. -/
structure DeviceSnapshot where
  info : DeviceRec
  details : RecordJ
  statistics : RecordJ

/-- The dictionary returned by `_async_update_data` (the Aggregated
Snapshot). -/
structure Snapshot where
  devices : List (String × DeviceSnapshot)
  clients : List ClientRecord
  wans : List Json
  client_count : Nat
  client_count_wired : Nat
  client_count_wireless : Nat
  client_count_vpn : Nat

/-- The conditions a cycle can fail with towards Home Assistant:
`authenticationFailed` models `homeassistant.exceptions.ConfigEntryAuthFailed`
(the distinct re-auth condition), `updateFailed` models
`homeassistant.helpers.update_coordinator.UpdateFailed`. -/
inductive CycleError where
  | authenticationFailed (msg : String)
  | updateFailed (msg : String)

/-- The two `except` clauses at the bottom of `_async_update_data`:
`UnifiAuthenticationError` is wrapped first, every other `UnifiApiError`
(including `UnifiConnectionError`, a subclass) second.  Both produce
`UpdateFailed`. -/
def mapCycleError (e : UnifiError) : CycleError :=
  match e with
  | .authenticationError m => .updateFailed ("Authentication failed: " ++ m)
  | _ => .updateFailed ("Error communicating with UniFi API: " ++ e.msg)

/-- Python `d[k] = v` on a dict modelled as an association list: replace the
binding if `k` is present, else append it. -/
def insertDict (m : List (String × DeviceSnapshot)) (k : String) (v : DeviceSnapshot) :
    List (String × DeviceSnapshot) :=
  if m.any (fun p => p.1 == k) then
    m.map (fun p => if p.1 == k then (k, v) else p)
  else
    m ++ [(k, v)]

/-- The entry stored for one device: `_fetch_device_data` packages the fetched
`{info, details, statistics}`; when the gathered task produced an exception
(`return_exceptions=True`), the placeholder `{info: device, details: {},
statistics: {}}` is stored instead. -/
def deviceEntry (deviceFetch : DeviceRec → Except UnifiError (RecordJ × RecordJ))
    (d : DeviceRec) : DeviceSnapshot :=
  match deviceFetch d with
  | .error _ => { info := d, details := [], statistics := [] }
  | .ok (det, st) => { info := d, details := det, statistics := st }

/-- The `devices` dict built by the `for device, result in zip(...)` loop. -/
def buildDevices (deviceFetch : DeviceRec → Except UnifiError (RecordJ × RecordJ))
    (ds : List DeviceRec) : List (String × DeviceSnapshot) :=
  ds.foldl (fun m d => insertDict m d.id (deviceEntry deviceFetch d)) []

/-- The body of the client-counting loop of `_async_update_data`: the
accumulator is `(client_count_wired, client_count_wireless, client_count_vpn)`
and the record is classified by `client.get("type", "").upper()` through the
`elif` chain. -/
def countStep (acc : Nat × Nat × Nat) (client : ClientRecord) : Nat × Nat × Nat :=
  let ct := pyUpper (client.type.getD "")
  if ct = "WIRED" then (acc.1 + 1, acc.2.1, acc.2.2)
  else if ct = "WIRELESS" then (acc.1, acc.2.1 + 1, acc.2.2)
  else if ct = "VPN" then (acc.1, acc.2.1, acc.2.2 + 1)
  else acc

/-- The client-counting loop of `_async_update_data`, started from
`(0, 0, 0)`. -/
def countClients (clients : List ClientRecord) : Nat × Nat × Nat :=
  clients.foldl countStep (0, 0, 0)

/-- The fetch outcomes one cycle observes: the three top-level fetches
(`get_devices`, `get_clients`, `get_wans`) and, for each device record, the
outcome of its combined details/statistics task (`_fetch_device_data`). -/
structure FetchOutcomes where
  devicesR : Except UnifiError (List DeviceRec)
  clientsR : Except UnifiError (List ClientRecord)
  wansR : Except UnifiError (List Json)
  deviceFetch : DeviceRec → Except UnifiError (RecordJ × RecordJ)

/-- `UnifiNetworkApiCoordinator._async_update_data` as a function of the fetch
outcomes.  If any of the three gathered top-level fetches raised, that error
propagates out of `asyncio.gather` and is wrapped by the `except` clauses;
otherwise the per-device results (exceptions included, by
`return_exceptions=True`) are folded into the `devices` dict, clients are
counted, and the snapshot dict is returned. -/
def async_update_data (f : FetchOutcomes) : Except CycleError Snapshot :=
  match f.devicesR, f.clientsR, f.wansR with
  | .error e, _, _ => .error (mapCycleError e)
  | _, .error e, _ => .error (mapCycleError e)
  | _, _, .error e => .error (mapCycleError e)
  | .ok ds, .ok cs, .ok ws =>
      let devices := buildDevices f.deviceFetch ds
      let counts := countClients cs
      .ok { devices := devices
            clients := cs
            wans := ws
            client_count := cs.length
            client_count_wired := counts.1
            client_count_wireless := counts.2.1
            client_count_vpn := counts.2.2 }

/-- Modelled from the spec: the host framework (`DataUpdateCoordinator`, not
part of this repository) replaces the published snapshot only when a cycle
returns one, and "on cycle failure the previous snapshot is retained". -/
def publish (prev : Option Snapshot) (result : Except CycleError Snapshot) :
    Option Snapshot :=
  match result with
  | .ok s => some s
  | .error _ => prev

/-! ## Spec-side predicates (written from the spec's words, for comparison) -/

/-- Spec predicate: the record's `type` field compares equal to `s` under
case-insensitive comparison; a missing field matches nothing. -/
def matchesTypeCI (c : ClientRecord) (s : String) : Bool :=
  match c.type with
  | some t => pyUpper t == pyUpper s
  | none => false

/-! ## Pagination lemmas -/

/-- Unfolding one iteration of the `_paginate` loop at the `i`-th request:
the accumulated records are `accTo server i`, the requested offset is
`200 * i`, and the `break` condition is `stopAt server i`. -/
lemma paginateGo_step (server : Nat → PageResp α) (fuel i : Nat) :
    paginateGo server (fuel + 1) (accTo server i) (200 * i) =
      if stopAt server i then
        some (accTo server (i + 1), [200 * i])
      else
        match paginateGo server fuel (accTo server (i + 1)) (200 * i + 200) with
        | none => none
        | some (r, os) => some (r, 200 * i :: os) := rfl

/-- If the loop would break for the first time at the `(i+k)`-th request, then
with enough fuel the run starting at the `i`-th request returns all pages
through `i + k` and requests exactly the offsets `200*i .. 200*(i+k)`. -/
lemma paginateGo_run (server : Nat → PageResp α) :
    ∀ k i fuel : Nat, (∀ j, j < k → stopAt server (i + j) = false) →
      stopAt server (i + k) = true → k < fuel →
      paginateGo server fuel (accTo server i) (200 * i) =
        some (accTo server (i + k + 1),
              (List.range (k + 1)).map (fun j => 200 * (i + j))) := by
  intro k
  induction k with
  | zero =>
      intro i fuel _ hstop hfuel
      obtain ⟨m, rfl⟩ : ∃ m, fuel = m + 1 := ⟨fuel - 1, by omega⟩
      rw [paginateGo_step]
      simp only [Nat.add_zero] at hstop ⊢
      rw [hstop]
      simp [List.range_succ]
  | succ k ih =>
      intro i fuel hlt hstop hfuel
      obtain ⟨m, rfl⟩ : ∃ m, fuel = m + 1 := ⟨fuel - 1, by omega⟩
      rw [paginateGo_step]
      have h0 : stopAt server i = false := by
        have := hlt 0 (Nat.succ_pos k)
        simpa using this
      rw [h0]
      have h200 : 200 * i + 200 = 200 * (i + 1) := by ring
      rw [h200, ih (i + 1) m
        (fun j hj => by
          have := hlt (j + 1) (by omega)
          simpa [Nat.add_assoc, Nat.add_comm 1 j] using this)
        (by
          have : i + (k + 1) = i + 1 + k := by omega
          rw [this] at hstop
          exact hstop)
        (by omega)]
      have harith : i + 1 + k + 1 = i + (k + 1) + 1 := by omega
      rw [harith]
      have hrange : (List.range (k + 1 + 1)).map (fun j => 200 * (i + j)) =
          200 * i :: (List.range (k + 1)).map (fun j => 200 * (i + 1 + j)) := by
        rw [List.range_succ_eq_map, List.map_cons, List.map_map]
        have hf : ((fun j => 200 * (i + j)) ∘ Nat.succ) =
            fun j => 200 * (i + 1 + j) := by
          funext j
          simp only [Function.comp]
          omega
        rw [hf]
        simp
      rw [hrange]
      simp

/-- The accumulation through the first `n` pages is the concatenation of those
pages in request order. -/
lemma accTo_eq_flatten (server : Nat → PageResp α) :
    ∀ n, accTo server n =
      ((List.range n).map (fun j => (server (200 * j)).data)).flatten := by
  intro n
  induction n with
  | zero => rfl
  | succ n ih =>
      rw [accTo, ih, List.range_succ]
      simp [pageAt]

/-- The offsets requested by any terminating `paginateGo` run form the
arithmetic progression starting at the initial offset with step 200 (the fixed
`limit`). -/
lemma paginateGo_offsets (server : Nat → PageResp α) :
    ∀ fuel results offset r os,
      paginateGo server fuel results offset = some (r, os) →
      os = (List.range os.length).map (fun j => offset + 200 * j) := by
  intro fuel
  induction fuel with
  | zero => intro results offset r os h; simp [paginateGo] at h
  | succ fuel ih =>
      intro results offset r os h
      rw [paginateGo] at h
      split at h
      · obtain ⟨rfl, rfl⟩ : r = results ++ (server offset).data ∧ os = [offset] := by
          simpa using h.symm
        simp [List.range_succ]
      · split at h
        · exact absurd h (by simp)
        · rename_i r' os' heq
          obtain ⟨rfl, rfl⟩ : r = r' ∧ os = offset :: os' := by
            simpa using h.symm
          have hos' := ih _ _ _ _ heq
          rw [List.length_cons, List.range_succ_eq_map, List.map_cons, List.map_map]
          have hf : ((fun j => offset + 200 * j) ∘ Nat.succ) =
              fun j => offset + 200 + 200 * j := by
            funext j
            simp only [Function.comp]
            omega
          rw [hf]
          simp only [Nat.mul_zero, Nat.add_zero]
          exact congrArg (offset :: ·) hos'

/-- Reading one element of an arithmetic progression with step 200. -/
lemma get_arith_progression (off : Nat) (l : List Nat)
    (hl : l = (List.range l.length).map (fun j => off + 200 * j)) (j : Nat)
    (hj : j + 1 < l.length) :
    l.get ⟨j + 1, hj⟩ = l.get ⟨j, by omega⟩ + 200 := by
  obtain ⟨n, hn⟩ : ∃ n, l.length = n := ⟨_, rfl⟩
  rw [hn] at hl
  subst hl
  simp only [List.get_eq_getElem, List.getElem_map, List.getElem_range]
  omega

/-! ## Claim theorems: pagination (C3, C4, C8) -/

/-- Claim C3: for every server-page sequence in which some page is empty, or
the accumulated record count reaches the reported `totalCount`, `_paginate`
terminates (any fuel beyond the terminating page gives the same result) and
returns exactly the concatenation, in request order, of the pages it fetched
at offsets `0, 200, ..., 200*k`, issuing no request after the terminating page
`k` (the first one at which the loop's break condition holds). -/
theorem paginate_terminates_returns_concatenation (server : Nat → PageResp α)
    (h : ∃ i, pageAt server i = [] ∨
      ∃ t, (server (200 * i)).totalCount = some t ∧ t ≤ (accTo server (i + 1)).length) :
    ∃ k, stopAt server k = true ∧ (∀ j, j < k → stopAt server j = false) ∧
      ∀ fuel, k < fuel →
        paginate server fuel =
          some ((((List.range (k + 1)).map (fun j => 200 * j)).map
                    (fun o => (server o).data)).flatten,
                (List.range (k + 1)).map (fun j => 200 * j)) := by
  have hex : ∃ i, stopAt server i = true := by
    obtain ⟨i, hi | ⟨t, ht, hle⟩⟩ := h
    · exact ⟨i, by simp [stopAt, hi]⟩
    · refine ⟨i, ?_⟩
      simp only [stopAt, ht, Option.getD_some, Bool.or_eq_true, decide_eq_true_eq]
      exact Or.inl hle
  refine ⟨Nat.find hex, Nat.find_spec hex, ?_, ?_⟩
  · intro j hj
    have := Nat.find_min hex hj
    exact Bool.not_eq_true _ ▸ eq_false_of_ne_true this
  · intro fuel hfuel
    have hrun := paginateGo_run server (Nat.find hex) 0 fuel
      (fun j hj => by
        have := Nat.find_min hex (by omega : j < Nat.find hex)
        simpa using eq_false_of_ne_true this)
      (by simpa using Nat.find_spec hex) hfuel
    have hstart : paginate server fuel =
        paginateGo server fuel (accTo server 0) (200 * 0) := rfl
    rw [hstart, hrun]
    simp only [Nat.zero_add]
    rw [accTo_eq_flatten, List.map_map]
    rfl

/-- A concrete server used to exercise the pagination claims: the first page
carries one record but reports `totalCount` 3, and every later page is
empty. -/
def cexServer : Nat → PageResp Nat := fun o =>
  if o = 0 then { data := [7], totalCount := some 3 }
  else { data := [], totalCount := some 3 }

/-- A concrete server that serves a single one-record page with `totalCount`
1. -/
def oneServer : Nat → PageResp Nat :=
  fun _ => { data := [5], totalCount := some 1 }

/-- Claim C3 witness: a concrete one-page run (the page reports `totalCount`
1, reached immediately). -/
theorem paginate_terminates_returns_concatenation_witness :
    ∃ k, stopAt oneServer k = true ∧ (∀ j, j < k → stopAt oneServer j = false) ∧
      ∀ fuel, k < fuel →
        paginate oneServer fuel =
          some ((((List.range (k + 1)).map (fun j => 200 * j)).map
                    (fun o => (oneServer o).data)).flatten,
                (List.range (k + 1)).map (fun j => 200 * j)) :=
  paginate_terminates_returns_concatenation oneServer ⟨0, Or.inr ⟨1, rfl, by decide⟩⟩

/-- Claim C4 (counterexample): the run on `cexServer` issues two requests, at
offsets 0 and 200, although the first page returned only one record — the
second offset is not the first offset plus the first page's size. -/
theorem paginate_offset_not_page_size :
    paginate cexServer 2 = some ([7], [0, 200]) ∧
    (cexServer 0).data.length = 1 ∧ 0 + (cexServer 0).data.length ≠ 200 := by
  refine ⟨rfl, rfl, by decide⟩

/-- Claim C4 (amended): in every pagination run, each successive request's
offset exceeds the previous request's offset by the fixed page limit 200,
regardless of how many records the previous page returned. -/
theorem paginate_offset_increments_by_limit (server : Nat → PageResp α)
    (fuel : Nat) (r : List α) (os : List Nat)
    (h : paginate server fuel = some (r, os))
    (j : Nat) (hj : j + 1 < os.length) :
    os.get ⟨j + 1, hj⟩ = os.get ⟨j, by omega⟩ + 200 := by
  have hos := paginateGo_offsets server fuel [] 0 r os h
  simp only [Nat.zero_add] at hos
  exact get_arith_progression 0 os (by simpa using hos) j hj

/-- Claim C4 (amended) witness: on the concrete two-request run of
`cexServer`, the second offset is the first plus 200. -/
theorem paginate_offset_increments_by_limit_witness :
    ([0, 200] : List Nat).get ⟨1, by decide⟩ =
      ([0, 200] : List Nat).get ⟨0, by decide⟩ + 200 :=
  paginate_offset_increments_by_limit cexServer 2 [7] [0, 200] rfl 0 (by decide)

/-- Claim C8: if the first page's response carries no `totalCount` field,
`_paginate` treats the accumulated count as the total, returns exactly the
first page's records, and issues no further request (the request list is
`[0]`) — whatever the page's contents, full pages included. -/
theorem paginate_missing_totalCount (server : Nat → PageResp α)
    (h : (server 0).totalCount = none) (fuel : Nat) (hf : 0 < fuel) :
    paginate server fuel = some ((server 0).data, [0]) := by
  obtain ⟨m, rfl⟩ : ∃ m, fuel = m + 1 := ⟨fuel - 1, by omega⟩
  have hstart : paginate server (m + 1) =
      paginateGo server (m + 1) (accTo server 0) (200 * 0) := rfl
  rw [hstart, paginateGo_step]
  have hstop : stopAt server 0 = true := by
    simp [stopAt, h]
  rw [hstop]
  simp [accTo, pageAt]

/-- A concrete server whose first page is full (200 records) but whose
response envelope has no `totalCount`. -/
def fullNoTotalServer : Nat → PageResp Nat :=
  fun _ => { data := List.replicate 200 0, totalCount := none }

/-- Claim C8 witness: with a full 200-record first page and no `totalCount`,
the run stops after the single request at offset 0. -/
theorem paginate_missing_totalCount_witness :
    paginate fullNoTotalServer 1 =
      some ((fullNoTotalServer 0).data, [0]) ∧
    (fullNoTotalServer 0).data.length = 200 :=
  ⟨paginate_missing_totalCount fullNoTotalServer rfl 1 (by omega),
   List.length_replicate 200 0⟩

/-! ## Claim theorems: transport client (C6, C7, C10) -/

/-- Claim C6: the status-to-error mapping of `_request` — 401/403 fail with
`UnifiAuthenticationError`; any other non-200 status fails with
`UnifiApiError` carrying the response body text; a low-level transport failure
fails with `UnifiConnectionError` wrapping the underlying cause's message; a
200 response returns the parsed JSON body. -/
theorem request_error_mapping (host text err : String) (body : Json) (status : Nat) :
    (status = 401 ∨ status = 403 →
      request host (.response status text body) =
        .error (.authenticationError ("Authentication failed: " ++ toString status))) ∧
    (¬(status = 401 ∨ status = 403) → status ≠ 200 →
      request host (.response status text body) =
        .error (.apiError ("API request failed (" ++ toString status ++ "): " ++ text))) ∧
    (request host (.clientError err) =
      .error (.connectionError
        ("Cannot connect to UniFi controller at " ++ rstrip_slash host ++ ": " ++ err))) ∧
    (status = 200 → request host (.response status text body) = .ok body) := by
  refine ⟨?_, ?_, rfl, ?_⟩
  · intro h
    simp [request, h]
  · intro h h200
    simp [request, h, h200]
  · intro h
    subst h
    simp [request]

/-- Claim C6 witness: the mapping evaluated at statuses 401, 500 and 200 and
at a concrete transport failure. -/
theorem request_error_mapping_witness :
    request "h" (.response 401 "t" .null) =
      .error (.authenticationError ("Authentication failed: " ++ toString 401)) ∧
    request "h" (.response 500 "t" .null) =
      .error (.apiError ("API request failed (" ++ toString 500 ++ "): " ++ "t")) ∧
    request "h" (.clientError "e") =
      .error (.connectionError
        ("Cannot connect to UniFi controller at " ++ rstrip_slash "h" ++ ": " ++ "e")) ∧
    request "h" (.response 200 "t" .null) = .ok .null :=
  ⟨(request_error_mapping "h" "t" "e" .null 401).1 (Or.inl rfl),
   (request_error_mapping "h" "t" "e" .null 500).2.1 (by decide) (by decide),
   (request_error_mapping "h" "t" "e" .null 500).2.2.1,
   (request_error_mapping "h" "t" "e" .null 200).2.2.2 rfl⟩

/-- Claim C7: `get_wans` normalizes both accepted response shapes to the same
sequence — a bare JSON array is returned as-is, an object whose `data` key
holds an array yields that array (any further keys notwithstanding), and the
two shapes over the same array normalize identically. -/
theorem get_wans_normalizes (xs : List Json) (rest : RecordJ) :
    get_wans (.arr xs) = .ok (.arr xs) ∧
    get_wans (.obj (("data", .arr xs) :: rest)) = .ok (.arr xs) ∧
    get_wans (.arr xs) = get_wans (.obj [("data", .arr xs)]) :=
  ⟨rfl, rfl, rfl⟩

/-- `dropWhile` is idempotent. -/
lemma dropWhile_idem (p : α → Bool) (l : List α) :
    (l.dropWhile p).dropWhile p = l.dropWhile p := by
  induction l with
  | nil => rfl
  | cons a l ih =>
      by_cases h : p a
      · simp [List.dropWhile_cons, h, ih]
      · simp [List.dropWhile_cons, h]

/-- Dropping leading copies of `'/'` ignores any prepended run of `'/'`. -/
lemma dropWhile_slash_replicate (n : Nat) (l : List Char) :
    (List.replicate n '/' ++ l).dropWhile (fun c => c == '/') =
      l.dropWhile (fun c => c == '/') := by
  induction n with
  | zero => rfl
  | succ n ih => simp [List.replicate_succ, List.dropWhile_cons, ih]

/-- `rstrip("/")` is idempotent. -/
lemma rstrip_slash_idem (s : String) :
    rstrip_slash (rstrip_slash s) = rstrip_slash s := by
  simp [rstrip_slash, List.reverse_reverse, dropWhile_idem]

/-- `rstrip("/")` removes any run of trailing slashes. -/
lemma rstrip_slash_append_slashes (s : String) (n : Nat) :
    rstrip_slash (s ++ String.mk (List.replicate n '/')) = rstrip_slash s := by
  simp [rstrip_slash, String.data_append, List.reverse_append,
    List.reverse_replicate, dropWhile_slash_replicate]

/-- Claim C10: constructing the client with a host carrying trailing slashes
yields the same base URL — and hence the same request URL for every path — as
constructing it with the host with the trailing slashes removed; equivalently,
appending any run of trailing slashes to a host leaves the base URL
unchanged. -/
theorem base_url_ignores_trailing_slashes (host : String) :
    base_url host = base_url (rstrip_slash host) ∧
    (∀ path, request_url host path = request_url (rstrip_slash host) path) ∧
    (∀ n, base_url (host ++ String.mk (List.replicate n '/')) = base_url host) := by
  refine ⟨?_, ?_, ?_⟩
  · rw [base_url, base_url, rstrip_slash_idem]
  · intro path
    rw [request_url, request_url, base_url, base_url, rstrip_slash_idem]
  · intro n
    rw [base_url, base_url, rstrip_slash_append_slashes]

/-! ## Coordinator lemmas -/

/-- The spec's case-insensitive match agrees with the coordinator's
`client.get("type", "").upper() == s` comparison, for any already-uppercase
non-empty target `s`. -/
lemma matchesTypeCI_decide (c : ClientRecord) (s : String)
    (hu : pyUpper s = s) (hne : s ≠ "") :
    matchesTypeCI c s = decide (pyUpper (c.type.getD "") = s) := by
  cases hcty : c.type with
  | none =>
      have h0 : pyUpper "" = "" := rfl
      have hns : ("" : String) ≠ s := fun h => hne h.symm
      simp [matchesTypeCI, hcty, h0, hns]
  | some t =>
      simp only [matchesTypeCI, hcty, Option.getD_some, hu]
      by_cases hh : pyUpper t = s
      · simp [hh]
      · simp [hh]

/-- The counting loop from any accumulator adds, per counter, the number of
records whose `type` matches the corresponding label case-insensitively. -/
lemma foldl_countStep (cs : List ClientRecord) :
    ∀ acc : Nat × Nat × Nat,
      cs.foldl countStep acc =
        (acc.1 + cs.countP (fun c => matchesTypeCI c "WIRED"),
         acc.2.1 + cs.countP (fun c => matchesTypeCI c "WIRELESS"),
         acc.2.2 + cs.countP (fun c => matchesTypeCI c "VPN")) := by
  induction cs with
  | nil => intro acc; simp
  | cons c cs ih =>
      intro acc
      rw [List.foldl_cons, ih, List.countP_cons, List.countP_cons, List.countP_cons]
      rw [matchesTypeCI_decide c "WIRED" (by decide) (by decide),
          matchesTypeCI_decide c "WIRELESS" (by decide) (by decide),
          matchesTypeCI_decide c "VPN" (by decide) (by decide)]
      by_cases h1 : pyUpper (c.type.getD "") = "WIRED"
      · have h2 : pyUpper (c.type.getD "") ≠ "WIRELESS" := by rw [h1]; decide
        have h3 : pyUpper (c.type.getD "") ≠ "VPN" := by rw [h1]; decide
        simp [countStep, h1, h2, h3]
        omega
      · by_cases h2 : pyUpper (c.type.getD "") = "WIRELESS"
        · have h3 : pyUpper (c.type.getD "") ≠ "VPN" := by rw [h2]; decide
          simp [countStep, h1, h2, h3]
          omega
        · by_cases h3 : pyUpper (c.type.getD "") = "VPN"
          · simp [countStep, h1, h2, h3]
            omega
          · simp [countStep, h1, h2, h3]

/-- `countClients` computes exactly the three case-insensitive tallies. -/
lemma countClients_eq_countP (cs : List ClientRecord) :
    countClients cs =
      (cs.countP (fun c => matchesTypeCI c "WIRED"),
       cs.countP (fun c => matchesTypeCI c "WIRELESS"),
       cs.countP (fun c => matchesTypeCI c "VPN")) := by
  rw [countClients, foldl_countStep]
  simp

/-- Each loop iteration raises the three counters, in total, by at most one. -/
lemma foldl_countStep_sum_le (cs : List ClientRecord) :
    ∀ acc : Nat × Nat × Nat,
      (cs.foldl countStep acc).1 + (cs.foldl countStep acc).2.1 +
          (cs.foldl countStep acc).2.2 ≤
        acc.1 + acc.2.1 + acc.2.2 + cs.length := by
  induction cs with
  | nil => intro acc; simp
  | cons c cs ih =>
      intro acc
      rw [List.foldl_cons]
      have h := ih (countStep acc c)
      have hstep : (countStep acc c).1 + (countStep acc c).2.1 + (countStep acc c).2.2 ≤
          acc.1 + acc.2.1 + acc.2.2 + 1 := by
        simp only [countStep]
        split
        · simp
          omega
        · split
          · simp
            omega
          · split
            · simp
              omega
            · simp
      simp only [List.length_cons]
      omega

/-- The three counters sum to at most the number of client records. -/
lemma countClients_sum_le (cs : List ClientRecord) :
    (countClients cs).1 + (countClients cs).2.1 + (countClients cs).2.2 ≤ cs.length := by
  have := foldl_countStep_sum_le cs (0, 0, 0)
  simpa [countClients] using this

/-- `dict.any` over the keys is false exactly when the key is absent. -/
lemma any_key_eq_false (m : List (String × DeviceSnapshot)) (k : String)
    (h : k ∉ m.map Prod.fst) : m.any (fun p => p.1 == k) = false := by
  rw [List.any_eq_false]
  intro p hp
  simp only [beq_iff_eq]
  exact fun he => h (List.mem_map.mpr ⟨p, hp, he⟩)

/-- Keys after a Python-style dict assignment: the old keys plus the assigned
one. -/
lemma mem_keys_insertDict (m : List (String × DeviceSnapshot)) (k k' : String)
    (v : DeviceSnapshot) :
    k' ∈ (insertDict m k v).map Prod.fst ↔ k' ∈ m.map Prod.fst ∨ k' = k := by
  unfold insertDict
  split
  · next h =>
      have hkeys : (m.map (fun p => if p.1 == k then (k, v) else p)).map Prod.fst =
          m.map Prod.fst := by
        rw [List.map_map]
        apply List.map_congr_left
        intro p _
        by_cases hp : p.1 = k
        · simp [hp]
        · simp [hp]
      rw [hkeys]
      have hk : k ∈ m.map Prod.fst := by
        obtain ⟨p, hp, hpk⟩ := List.any_eq_true.mp h
        exact List.mem_map.mpr ⟨p, hp, by simpa using hpk⟩
      constructor
      · exact Or.inl
      · rintro (hm | rfl)
        · exact hm
        · exact hk
  · simp [List.map_append]

/-- The keys of the built `devices` dict are exactly the listed device ids. -/
lemma mem_keys_buildDevices
    (deviceFetch : DeviceRec → Except UnifiError (RecordJ × RecordJ))
    (ds : List DeviceRec) (k : String) :
    k ∈ (buildDevices deviceFetch ds).map Prod.fst ↔ k ∈ ds.map DeviceRec.id := by
  suffices h : ∀ m : List (String × DeviceSnapshot),
      (k ∈ ((ds.foldl (fun m d => insertDict m d.id (deviceEntry deviceFetch d)) m).map
          Prod.fst) ↔ k ∈ m.map Prod.fst ∨ k ∈ ds.map DeviceRec.id) by
    simpa [buildDevices] using h []
  induction ds with
  | nil => intro m; simp
  | cons d ds ih =>
      intro m
      rw [List.foldl_cons, ih, mem_keys_insertDict]
      simp only [List.map_cons, List.mem_cons]
      tauto

/-- When the listed ids are pairwise distinct, the built `devices` dict is the
listing mapped to its entries, in listing order. -/
lemma buildDevices_eq_map
    (deviceFetch : DeviceRec → Except UnifiError (RecordJ × RecordJ))
    (ds : List DeviceRec) (hnodup : (ds.map DeviceRec.id).Nodup) :
    buildDevices deviceFetch ds =
      ds.map (fun d => (d.id, deviceEntry deviceFetch d)) := by
  suffices h : ∀ m : List (String × DeviceSnapshot),
      (∀ d ∈ ds, d.id ∉ m.map Prod.fst) → (ds.map DeviceRec.id).Nodup →
      ds.foldl (fun m d => insertDict m d.id (deviceEntry deviceFetch d)) m =
        m ++ ds.map (fun d => (d.id, deviceEntry deviceFetch d)) by
    simpa [buildDevices] using h [] (by simp) hnodup
  clear hnodup
  induction ds with
  | nil => intro m _ _; simp
  | cons d ds ih =>
      intro m hfresh hnd
      rw [List.foldl_cons]
      have hins : insertDict m d.id (deviceEntry deviceFetch d) =
          m ++ [(d.id, deviceEntry deviceFetch d)] := by
        rw [insertDict, any_key_eq_false m d.id (hfresh d (List.mem_cons_self d ds))]
        simp
      rw [hins]
      rw [List.map_cons] at hnd
      have hd_notin : d.id ∉ ds.map DeviceRec.id := (List.nodup_cons.mp hnd).1
      rw [ih (m ++ [(d.id, deviceEntry deviceFetch d)])
        (fun x hx => by
          simp only [List.map_append, List.mem_append]
          rintro (hxm | hxd)
          · exact hfresh x (List.mem_cons_of_mem d hx) hxm
          · have : x.id = d.id := by simpa using hxd
            exact hd_notin (this ▸ List.mem_map.mpr ⟨x, hx, rfl⟩))
        (List.nodup_cons.mp hnd).2]
      simp

/-- Looking an id up in the mapped listing finds that device's entry, when ids
are pairwise distinct. -/
lemma lookup_map_devices
    (deviceFetch : DeviceRec → Except UnifiError (RecordJ × RecordJ))
    (ds : List DeviceRec) (hnodup : (ds.map DeviceRec.id).Nodup)
    (d : DeviceRec) (hd : d ∈ ds) :
    List.lookup d.id (ds.map (fun x => (x.id, deviceEntry deviceFetch x))) =
      some (deviceEntry deviceFetch d) := by
  induction ds with
  | nil => cases hd
  | cons x ds ih =>
      rw [List.map_cons] at hnodup ⊢
      rcases List.mem_cons.mp hd with rfl | hmem
      · simp [List.lookup]
      · have hne : d.id ≠ x.id := by
          intro he
          exact (List.nodup_cons.mp hnodup).1
            (he ▸ List.mem_map.mpr ⟨d, hmem, rfl⟩)
        have hbeq : (d.id == x.id) = false := by simpa using hne
        simp only [List.lookup, hbeq]
        exact ih (List.nodup_cons.mp hnodup).2 hmem

/-! ## Claim theorems: coordinator (C1, C2, C5, C9) -/

/-- The empty snapshot, used as a concrete previously-published value. -/
def emptySnapshot : Snapshot :=
  { devices := [], clients := [], wans := [], client_count := 0,
    client_count_wired := 0, client_count_wireless := 0, client_count_vpn := 0 }

/-- A cycle whose devices fetch fails with the authentication error `_request`
raises on a 401, while the other fetches succeed. -/
def authFailOutcomes : FetchOutcomes :=
  { devicesR := .error (.authenticationError "Authentication failed: 401")
    clientsR := .ok []
    wansR := .ok []
    deviceFetch := fun _ => .ok ([], []) }

/-- Claim C1, evaluated at the failing input: when a top-level fetch fails
with an authentication error, `_async_update_data` raises the generic
`UpdateFailed` (carrying an "Authentication failed" message) rather than the
distinct re-authentication condition, and the previously published snapshot,
if any, is unchanged.  This refutes the claim's "distinct AuthenticationFailed
condition (not the generic UpdateFailed)". -/
theorem auth_error_cycle_raises_generic_updateFailed :
    async_update_data authFailOutcomes =
      .error (.updateFailed ("Authentication failed: " ++ "Authentication failed: 401")) ∧
    publish (some emptySnapshot) (async_update_data authFailOutcomes) =
      some emptySnapshot ∧
    publish none (async_update_data authFailOutcomes) = none :=
  ⟨rfl, rfl, rfl⟩

/-- Claim C2: when the three top-level fetches succeed and the listed ids are
pairwise distinct, the cycle succeeds with a snapshot whose entry for each
device is the `{info, details: {}, statistics: {}}` placeholder when that
device's detail/statistics fetch failed, and the fetched
`{info, details, statistics}` when it succeeded. -/
theorem cycle_isolates_device_failures (f : FetchOutcomes)
    (ds : List DeviceRec) (cs : List ClientRecord) (ws : List Json)
    (hd : f.devicesR = .ok ds) (hc : f.clientsR = .ok cs) (hw : f.wansR = .ok ws)
    (hnodup : (ds.map DeviceRec.id).Nodup) :
    ∃ snap, async_update_data f = .ok snap ∧
      ∀ d ∈ ds,
        (∀ e, f.deviceFetch d = .error e →
          List.lookup d.id snap.devices =
            some { info := d, details := [], statistics := [] }) ∧
        (∀ det st, f.deviceFetch d = .ok (det, st) →
          List.lookup d.id snap.devices =
            some { info := d, details := det, statistics := st }) := by
  refine ⟨_, by rw [async_update_data, hd, hc, hw], ?_⟩
  intro d hmem
  have hlook : List.lookup d.id (buildDevices f.deviceFetch ds) =
      some (deviceEntry f.deviceFetch d) := by
    rw [buildDevices_eq_map f.deviceFetch ds hnodup]
    exact lookup_map_devices f.deviceFetch ds hnodup d hmem
  constructor
  · intro e he
    rw [hlook]
    simp [deviceEntry, he]
  · intro det st hok
    rw [hlook]
    simp [deviceEntry, hok]

/-- A two-device listing where the first device's detail/statistics task
fails and the second's succeeds. -/
def dev1 : DeviceRec := { id := "d1", attrs := [] }

/-- The second device of the witness listing. -/
def dev2 : DeviceRec := { id := "d2", attrs := [] }

/-- Fetch outcomes for the claim C2 witness: top-level fetches succeed,
device `d1`'s task raises, device `d2`'s returns data. -/
def mixedOutcomes : FetchOutcomes :=
  { devicesR := .ok [dev1, dev2]
    clientsR := .ok []
    wansR := .ok []
    deviceFetch := fun d =>
      if d.id = "d1" then .error (.apiError "API request failed (500): boom")
      else .ok ([("x", .num 1)], [("y", .num 2)]) }

/-- Claim C2 witness: on the concrete two-device cycle, the cycle succeeds,
`d1` gets the placeholder and `d2` its fetched data. -/
theorem cycle_isolates_device_failures_witness :
    ∃ snap, async_update_data mixedOutcomes = .ok snap ∧
      List.lookup "d1" snap.devices =
        some { info := dev1, details := [], statistics := [] } ∧
      List.lookup "d2" snap.devices =
        some { info := dev2, details := [("x", .num 1)], statistics := [("y", .num 2)] } := by
  obtain ⟨snap, hok, hper⟩ := cycle_isolates_device_failures mixedOutcomes
    [dev1, dev2] [] [] rfl rfl rfl (by decide)
  refine ⟨snap, hok, ?_, ?_⟩
  · exact (hper dev1 (by simp)).1 (.apiError "API request failed (500): boom") rfl
  · exact (hper dev2 (by simp)).2 [("x", .num 1)] [("y", .num 2)] rfl

/-- Claim C5: for every successful cycle, the snapshot's
`client_count_wired`/`wireless`/`vpn` are exactly the numbers of client
records whose `type` matches `WIRED`/`WIRELESS`/`VPN` case-insensitively, and
`client_count` is the total number of records, whatever their types. -/
theorem snapshot_client_counts (f : FetchOutcomes)
    (ds : List DeviceRec) (cs : List ClientRecord) (ws : List Json)
    (hd : f.devicesR = .ok ds) (hc : f.clientsR = .ok cs) (hw : f.wansR = .ok ws) :
    ∃ snap, async_update_data f = .ok snap ∧
      snap.client_count = cs.length ∧
      snap.client_count_wired = cs.countP (fun c => matchesTypeCI c "WIRED") ∧
      snap.client_count_wireless = cs.countP (fun c => matchesTypeCI c "WIRELESS") ∧
      snap.client_count_vpn = cs.countP (fun c => matchesTypeCI c "VPN") := by
  refine ⟨_, by rw [async_update_data, hd, hc, hw], rfl, ?_, ?_, ?_⟩
  · show (countClients cs).1 = _
    rw [countClients_eq_countP]
  · show (countClients cs).2.1 = _
    rw [countClients_eq_countP]
  · show (countClients cs).2.2 = _
    rw [countClients_eq_countP]

/-- A client record with the given `type` field and no other attributes. -/
def clientOfType (t : Option String) : ClientRecord := { type := t, attrs := [] }

/-- Fetch outcomes for the claim C5 witness: the spec's example listing with
types `WIRED, WIRELESS, WIRELESS, VPN, GUEST`. -/
def clientsOutcomes : FetchOutcomes :=
  { devicesR := .ok []
    clientsR := .ok
      [clientOfType (some "WIRED"), clientOfType (some "WIRELESS"),
       clientOfType (some "wireless"), clientOfType (some "VPN"),
       clientOfType (some "GUEST")]
    wansR := .ok []
    deviceFetch := fun _ => .ok ([], []) }

/-- Claim C5 witness: on the example listing the totals are 5/1/2/1, the
`GUEST` record counting toward the total only. -/
theorem snapshot_client_counts_witness :
    ∃ snap, async_update_data clientsOutcomes = .ok snap ∧
      snap.client_count = 5 ∧ snap.client_count_wired = 1 ∧
      snap.client_count_wireless = 2 ∧ snap.client_count_vpn = 1 := by
  obtain ⟨snap, hok, hn, hw, hwl, hv⟩ := snapshot_client_counts clientsOutcomes
    [] [clientOfType (some "WIRED"), clientOfType (some "WIRELESS"),
        clientOfType (some "wireless"), clientOfType (some "VPN"),
        clientOfType (some "GUEST")] [] rfl rfl rfl
  refine ⟨snap, hok, ?_, ?_, ?_, ?_⟩
  · rw [hn]
    rfl
  · rw [hw]
    decide
  · rw [hwl]
    decide
  · rw [hv]
    decide

/-- Claim C9: every snapshot produced by a successful cycle has
`client_count_wired + client_count_wireless + client_count_vpn ≤ client_count`
and its `devices` mapping has exactly the listed device ids as keys. -/
theorem snapshot_invariants (f : FetchOutcomes) (snap : Snapshot)
    (h : async_update_data f = .ok snap) :
    snap.client_count_wired + snap.client_count_wireless + snap.client_count_vpn ≤
      snap.client_count ∧
    ∀ ds, f.devicesR = .ok ds →
      ∀ k, k ∈ snap.devices.map Prod.fst ↔ k ∈ ds.map DeviceRec.id := by
  cases hdr : f.devicesR with
  | error e => rw [async_update_data, hdr] at h; exact absurd h (by simp)
  | ok ds0 =>
  cases hcr : f.clientsR with
  | error e => rw [async_update_data, hdr, hcr] at h; exact absurd h (by simp)
  | ok cs0 =>
  cases hwr : f.wansR with
  | error e => rw [async_update_data, hdr, hcr, hwr] at h; exact absurd h (by simp)
  | ok ws0 =>
  rw [async_update_data, hdr, hcr, hwr] at h
  have hsnap := Except.ok.inj h
  subst hsnap
  constructor
  · simpa using countClients_sum_le cs0
  · intro ds hds k
    have : ds = ds0 := (Except.ok.inj hds).symm
    subst this
    exact mem_keys_buildDevices f.deviceFetch ds k

/-- The snapshot the mixed two-device cycle computes. -/
def snapM : Snapshot :=
  { devices := [("d1", { info := dev1, details := [], statistics := [] }),
                ("d2", { info := dev2, details := [("x", .num 1)],
                         statistics := [("y", .num 2)] })]
    clients := [], wans := [], client_count := 0,
    client_count_wired := 0, client_count_wireless := 0, client_count_vpn := 0 }

/-- Claim C9 witness: the invariants evaluated on the concrete mixed
two-device cycle. -/
theorem snapshot_invariants_witness :
    snapM.client_count_wired + snapM.client_count_wireless + snapM.client_count_vpn ≤
      snapM.client_count ∧
    ∀ k, k ∈ snapM.devices.map Prod.fst ↔ k ∈ [dev1, dev2].map DeviceRec.id :=
  ⟨(snapshot_invariants mixedOutcomes snapM rfl).1,
   (snapshot_invariants mixedOutcomes snapM rfl).2 [dev1, dev2] rfl⟩

end UnifiNetworkApi
